import Mathlib

/-!
Verification development for `net_config/audio.py` of the Speaker_Count
repository: the `MelspectrogramStretch` feature-extraction pipeline.

Embedding conventions:
* Scalars are `ℚ` (the floating-point code is embedded in exact rational
  arithmetic; division by zero yields `0` in `ℚ` where a float would give
  `inf`/`nan`, which no theorem below relies on).
* A PyTorch tensor is a `shape` (list of axis lengths) together with its
  row-major flattened `data`; broadcasting and `reshape` follow the
  PyTorch rules.
* The scalar library primitives `torch.log10`, the square root inside
  `torch.std`, the raw DFT coefficients of the external STFT collaborator,
  the mel filterbank entries and the phase-vocoder output values are
  abstracted as explicit function parameters (`Primitives`): the claims
  under study are about shapes, length bookkeeping, control flow and the
  algebra around these primitives, never about the numeric value of a
  logarithm or of a Fourier coefficient.
* Python exceptions are `Except String`; `raise` sites return
  `Except.error` (in the source `ParameterError` is an undefined name, so
  CPython actually raises `NameError` at the same program points; the
  model only records that an exception is raised there).
-/

/-- Maximum of a list of rationals, as used for `tensor.max()` on a
nonempty tensor.  The `[]` case is a junk value `0`; the code path that
takes a maximum of an empty tensor is modelled as an error before this
function is ever applied to `[]`. -/
def listMax : List ℚ → ℚ
  | [] => 0
  | [a] => a
  | a :: b :: rest => max a (listMax (b :: rest))

/-- Arithmetic mean of a list, as `torch.mean` over a flattened axis
(`[]` gives the junk value `0/0 = 0` where torch would give `nan`). -/
def listMean (l : List ℚ) : ℚ := l.sum / (l.length : ℚ)

/-- Unbiased sample variance (Bessel correction), the square of what
`torch.std` computes with its default `unbiased=True`. -/
def listVar (l : List ℚ) : ℚ :=
  (l.map (fun x => (x - listMean l) ^ 2)).sum / ((l.length : ℚ) - 1)

/-- Row `i` of a row-major matrix with row width `n`, flattened. -/
def rowSlice (data : List ℚ) (n i : ℕ) : List ℚ := (data.drop (i * n)).take n

/-- A dense tensor: axis lengths plus row-major flattened data. -/
structure Tensor where
  shape : List ℕ
  data : List ℚ
deriving DecidableEq

/-- Well-formedness: the data has exactly one entry per position. -/
def Tensor.wf (t : Tensor) : Prop := t.data.length = t.shape.prod

/-- Row-major flat index of a multi-index. -/
def flattenIdx : List ℕ → List ℕ → ℕ
  | _ :: ds, i :: is => i * ds.prod + flattenIdx ds is
  | _, _ => 0

/-- Multi-index of a row-major flat index. -/
def unflattenIdx : List ℕ → ℕ → List ℕ
  | [], _ => []
  | _ :: ds, k => (k / ds.prod) :: unflattenIdx ds (k % ds.prod)

/-- Read one element (out-of-range reads give the junk value `0`). -/
def Tensor.get (t : Tensor) (ix : List ℕ) : ℚ :=
  t.data.getD (flattenIdx t.shape ix) 0

/-- Elementwise unary operation (shape preserved), e.g. `spec ** 2`,
`torch.log10`, `torch.clamp` with scalar bounds, scalar add/sub. -/
def Tensor.map (f : ℚ → ℚ) (t : Tensor) : Tensor := ⟨t.shape, t.data.map f⟩

/-- Left-pad a shape with broadcast dimensions `1` up to rank `n`. -/
def padShape (n : ℕ) (s : List ℕ) : List ℕ := List.replicate (n - s.length) 1 ++ s

/-- PyTorch broadcast of two shapes: right-align, a dimension of `1`
stretches to the other dimension, otherwise dimensions must agree;
incompatible shapes give `none` (a `RuntimeError` in torch). -/
def broadcastShape (s1 s2 : List ℕ) : Option (List ℕ) :=
  let n := max s1.length s2.length
  let a := padShape n s1
  let b := padShape n s2
  if (a.zip b).all (fun p => p.1 == 1 || p.2 == 1 || p.1 == p.2) then
    some ((a.zip b).map (fun p => if p.1 = 1 then p.2 else p.1))
  else
    none

/-- Map a multi-index of the broadcast result shape onto a source tensor:
drop the leading padded axes, and read position `0` on each axis the
source holds with length `1`. -/
def broadcastIdx (srcShape ix : List ℕ) : List ℕ :=
  ((ix.drop (ix.length - srcShape.length)).zip srcShape).map
    (fun p => if p.2 = 1 then 0 else p.1)

/-- Elementwise binary operation with PyTorch broadcasting
(tensor subtraction and division in `spec_whiten`). -/
def Tensor.binop (f : ℚ → ℚ → ℚ) (t1 t2 : Tensor) : Except String Tensor :=
  match broadcastShape t1.shape t2.shape with
  | Option.none => Except.error "RuntimeError: shapes are not broadcastable"
  | Option.some s =>
      Except.ok ⟨s, (List.range s.prod).map (fun k =>
        let ix := unflattenIdx s k
        f (t1.get (broadcastIdx t1.shape ix)) (t2.get (broadcastIdx t2.shape ix)))⟩

/-- `x.reshape(b, -1)`: the trailing dimension is inferred as
`numel / b`. -/
def Tensor.reshape2 (t : Tensor) (b : ℕ) : Tensor := ⟨[b, t.shape.prod / b], t.data⟩

/-- `x.reshape(-1, 1, 1, 1)`: the leading dimension is inferred as the
element count. -/
def Tensor.reshape4 (t : Tensor) : Tensor := ⟨[t.shape.prod, 1, 1, 1], t.data⟩

/-- `torch.mean(x, dim=-1)` on a 2-D tensor `(B, N)`: one mean per row. -/
def meanDim (t : Tensor) : Tensor :=
  ⟨[t.shape.headD 0],
   (List.range (t.shape.headD 0)).map (fun b => listMean (rowSlice t.data (t.shape.getD 1 0) b))⟩

/-- `torch.std(x, dim=-1)` on a 2-D tensor `(B, N)`: one unbiased standard
deviation per row; the square root of the library is the abstract
parameter `sqrtQ`. -/
def stdDim (sqrtQ : ℚ → ℚ) (t : Tensor) : Tensor :=
  ⟨[t.shape.headD 0],
   (List.range (t.shape.headD 0)).map (fun b => sqrtQ (listVar (rowSlice t.data (t.shape.getD 1 0) b)))⟩

/-- `audio.py` line 46: `along_dim = lambda f, x: f(x, dim=-1).reshape(-1,1,1,1)`
(the `dim=-1` is baked into the reduction `f`, see `meanDim`/`stdDim`). -/
def along_dim (f : Tensor → Tensor) (x : Tensor) : Tensor := (f x).reshape4

/-- `audio.py` lines 44-57, `spec_whiten(spec, eps=1)`:
`lspec = log10(spec + eps)`, per-batch-element mean and std over the
flattened non-batch dimensions, then `(lspec - mean) / std` with PyTorch
broadcasting of the `(B,1,1,1)`-shaped statistics.  `log10` of the
library is the abstract parameter `log10`. -/
def spec_whiten (sqrtQ log10 : ℚ → ℚ) (spec : Tensor) (eps : ℚ) : Except String Tensor :=
  let lspec := Tensor.map (fun v => log10 (v + eps)) spec
  let batch := lspec.shape.headD 0
  let mean := along_dim meanDim (lspec.reshape2 batch)
  let std := along_dim (stdDim sqrtQ) (lspec.reshape2 batch)
  match Tensor.binop (fun a b => a - b) lspec mean with
  | Except.error e => Except.error e
  | Except.ok diff => Tensor.binop (fun a b => a / b) diff std

/-- The value of `log_spec` in `power_to_db` before the `top_db` clamp
(`audio.py` lines 31-32): `10*log10(clamp(spec, min=amin))` minus the
log-converted scalar reference. -/
def db_preclamp (log10 : ℚ → ℚ) (spec : Tensor) (refValue amin : ℚ) : Tensor :=
  Tensor.map (fun v => v - 10 * log10 (max refValue amin))
    (Tensor.map (fun v => 10 * log10 (max v amin)) spec)

/-- `audio.py` lines 26-29: `ref_value = ref(spec) if callable(ref) else ref`. -/
def refScalar (spec : Tensor) (ref : Sum ℚ (Tensor → ℚ)) : ℚ :=
  match ref with
  | Sum.inl c => c
  | Sum.inr f => f spec

/-- `audio.py` lines 18-41, `power_to_db(spec, ref=1.0, amin=1e-10, top_db=80.0)`.
`ref` is either a scalar or a callable of the input (`Sum`); `clamp` with
a scalar bound is `max`.  `raise` sites are `Except.error`.  Taking
`log_spec.max()` of a tensor with no elements is a torch `RuntimeError`,
modelled by the emptiness guard. -/
def power_to_db (log10 : ℚ → ℚ) (spec : Tensor) (ref : Sum ℚ (Tensor → ℚ))
    (amin : ℚ) (top_db : Option ℚ) : Except String Tensor :=
  if amin ≤ 0 then Except.error "ParameterError: amin must be strictly positive"
  else
    let refValue : ℚ := refScalar spec ref
    let log_spec := db_preclamp log10 spec refValue amin
    match top_db with
    | Option.none => Except.ok log_spec
    | Option.some td =>
        if td < 0 then Except.error "ParameterError: top_db must be non-negative"
        else if log_spec.data = [] then Except.error "RuntimeError: max of an empty tensor"
        else Except.ok (Tensor.map (fun v => max v (listMax log_spec.data - td)) log_spec)

/-- `audio.py` lines 10-15, `amplitude_to_db`: squares the spectrogram
(`power = spec**2`) and delegates to `power_to_db`. -/
def amplitude_to_db (log10 : ℚ → ℚ) (spec : Tensor) (ref : Sum ℚ (Tensor → ℚ))
    (amin : ℚ) (top_db : Option ℚ) : Except String Tensor :=
  power_to_db log10 (Tensor.map (fun v => v ^ 2) spec) ref amin top_db

/-- `audio.py` lines 60-61, `_num_stft_bins(lengths, fft_length, hop_length, pad)`:
`(lengths + 2 * pad - fft_length + hop_length) // hop_length` applied
elementwise; Python `//` on integers is floor division, `Int.fdiv`. -/
def num_stft_bins (lengths fft_length hop_length pad : ℤ) : ℤ :=
  Int.fdiv (lengths + 2 * pad - fft_length + hop_length) hop_length

/-- Truncation of a rational toward zero: the effect of
`tensor.long()` on a float value. -/
def ratTrunc (q : ℚ) : ℤ := Int.tdiv q.num (q.den : ℤ)

/-- `audio.py` line 100: one element of
`lengths = (lengths.float()/rate).long()+1`. -/
def stretchLength (old : ℤ) (rate : ℚ) : ℤ := ratTrunc ((old : ℚ) / rate) + 1

/-- Modelled from the spec: frame count of the external STFT collaborator
(`torchaudio_contrib.STFT`, not part of this repository) for a signal of
`L` samples: `floor((L + 2*pad - fft_length) / hop_length) + 1` with
`pad = fft_length/2` for centered framing; by the spec this exactly
equals `numStftBins(L)`, so it is defined through `num_stft_bins`. -/
def numStftFrames (L fft hop : ℕ) : ℕ :=
  (num_stft_bins (L : ℤ) (fft : ℤ) (hop : ℤ) ((fft / 2 : ℕ) : ℤ)).toNat

/-- The numeric collaborator primitives the pipeline consumes, abstracted
(spec section 6: FFT, filterbank values, phase-vocoder interpolation and
scalar `log10`/square root are assumed provided by the external numerical
library, not reimplemented). -/
structure Primitives where
  log10 : ℚ → ℚ
  sqrtQ : ℚ → ℚ
  stftVal : ℕ → ℚ
  fbank : ℕ → ℕ → ℚ
  pvVal : ℕ → ℚ

/-- Modelled from the spec: the external STFT collaborator
(`torchaudio_contrib.STFT`, missing from `src/`).  Spec section 3: the
STFT tensor has the 4 logical axes (batch, frequency bin, time frame,
complex pair), with `fft_length/2 + 1` frequency bins and the frame count
of `numStftFrames`; the DFT coefficient values come from the abstract FFT
primitive `coeff`. -/
def stftModel (fft hop : ℕ) (coeff : ℕ → ℚ) (x : Tensor) : Tensor :=
  let B := x.shape.headD 0
  let L := x.shape.getD 1 0
  let F := fft / 2 + 1
  let T := numStftFrames L fft hop
  ⟨[B, F, T, 2], (List.range (B * F * T * 2)).map coeff⟩

/-- Modelled from the spec: the external `torchaudio_contrib.TimeStretch`
collaborator (missing from `src/`).  Spec section 4.4: resamples the STFT
tensor along the time-frame axis to `floor(original_frames / rate)`
frames by phase-vocoder interpolation; the interpolated values come from
the abstract primitive `vals` (`hop` and `numFreqs` parametrize that
interpolation and do not affect the shape). -/
def timeStretchModel (hop numFreqs : ℕ) (vals : ℕ → ℚ) (x : Tensor) (rate : ℚ) : Tensor :=
  let B := x.shape.getD 0 0
  let F := x.shape.getD 1 0
  let T := x.shape.getD 2 0
  let Tn := (⌊(T : ℚ) / rate⌋).toNat
  ⟨[B, F, Tn, 2], (List.range (B * F * Tn * 2)).map vals⟩

/-- Modelled from the spec: the external `torchaudio_contrib.ComplexNorm`
collaborator with `power=2.` (missing from `src/`).  Spec section 4.3:
maps each complex coefficient to `|z|^2 = re^2 + im^2`, removing the
trailing complex axis. -/
def complexNormModel (x : Tensor) : Tensor :=
  ⟨x.shape.dropLast,
   (List.range x.shape.dropLast.prod).map
     (fun k => x.data.getD (2 * k) 0 ^ 2 + x.data.getD (2 * k + 1) 0 ^ 2)⟩

/-- Modelled from the spec: the external
`torchaudio_contrib.ApplyFilterbank` collaborator (missing from `src/`).
Spec section 4.5: matrix-multiplies the frequency axis of the power
spectrogram `(B, F, T)` by the `(num_mels, F)` mel filterbank, giving the
`(B, num_mels, T)` mel spectrogram; the filterbank entries come from the
abstract primitive `fb` (built by `MelFilterbank(num_mels, max_freq=1.0)`). -/
def applyFilterbankModel (numMels : ℕ) (fb : ℕ → ℕ → ℚ) (x : Tensor) : Tensor :=
  let B := x.shape.getD 0 0
  let F := x.shape.getD 1 0
  let T := x.shape.getD 2 0
  ⟨[B, numMels, T],
   (List.range (B * numMels * T)).map (fun k =>
     ((List.range F).map
       (fun f => fb (k / T % numMels) f * x.get [k / (numMels * T), f, k % T])).sum)⟩

/-- The two normalizers the constructor dictionary can select. -/
inductive NormSel where
  | whiten : NormSel
  | db : NormSel
deriving DecidableEq

/-- `audio.py` lines 72-75: `{'whiten': spec_whiten, 'db': amplitude_to_db}.get(norm, None)`. -/
def selectNorm (norm : String) : Option NormSel :=
  if norm = "whiten" then Option.some NormSel.whiten
  else if norm = "db" then Option.some NormSel.db
  else Option.none

/-- The fields of the constructed `MelspectrogramStretch` module
(`audio.py` lines 64-89): the stretch distribution `Uniform(-m, m)` is
recorded by its bounds, the sub-modules by their configuration numbers. -/
structure MelspectrogramStretch where
  prob : ℚ
  distLow : ℚ
  distHigh : ℚ
  norm : Option NormSel
  stft_fft_length : ℕ
  stft_hop_length : ℕ
  pv_hop_length : ℕ
  pv_num_freqs : ℕ
  cn_power : ℚ
  fb_num_mels : ℕ
  fb_max_freq : ℚ
  fft_length : ℕ
  hop_length : ℕ
  num_mels : ℕ
  stretch_param : List ℚ
  counter : ℕ
deriving DecidableEq

/-- `audio.py` lines 66-89, `MelspectrogramStretch.__init__`: note that
line 77 constructs the STFT with `hop_length=fft_length//4`, never
reading the `hop_length` argument, and lines 78 and 85 copy
`self.stft.hop_length`. -/
def MelspectrogramStretch.init (hop_length : Option ℕ) (num_mels fft_length : ℕ)
    (norm : String) (stretch_param : List ℚ) : MelspectrogramStretch :=
  { prob := stretch_param.getD 0 0
    distLow := -(stretch_param.getD 1 0)
    distHigh := stretch_param.getD 1 0
    norm := selectNorm norm
    stft_fft_length := fft_length
    stft_hop_length := fft_length / 4
    pv_hop_length := fft_length / 4
    pv_num_freqs := fft_length / 2 + 1
    cn_power := 2
    fb_num_mels := num_mels
    fb_max_freq := 1
    fft_length := fft_length
    hop_length := fft_length / 4
    num_mels := num_mels
    stretch_param := stretch_param
    counter := 0 }

/-- `audio.py` lines 102-110, the tail of `forward` after the stretch
stage: `x = self.app_fb(self.cn(x))` (inlined into each branch), the
selected normalizer applied with its call-site defaults (`spec_whiten`
gets `eps=1`, `amplitude_to_db` gets `ref=1.0`, `amin=1e-10`,
`top_db=80`), and the `(x, lengths)` versus `x` return. -/
def MelspectrogramStretch.normStage (self : MelspectrogramStretch) (P : Primitives)
    (x3 : Tensor) (lengths3 : Option (List ℤ)) : Except String (Tensor × Option (List ℤ)) :=
  match self.norm with
  | Option.none => Except.ok (applyFilterbankModel self.fb_num_mels P.fbank (complexNormModel x3),
      lengths3)
  | Option.some NormSel.whiten =>
      match spec_whiten P.sqrtQ P.log10
          (applyFilterbankModel self.fb_num_mels P.fbank (complexNormModel x3)) 1 with
      | Except.error e => Except.error e
      | Except.ok y => Except.ok (y, lengths3)
  | Option.some NormSel.db =>
      match amplitude_to_db P.log10
          (applyFilterbankModel self.fb_num_mels P.fbank (complexNormModel x3))
          (Sum.inl 1) (1 / 10 ^ 10) (Option.some 80) with
      | Except.error e => Except.error e
      | Except.ok y => Except.ok (y, lengths3)

/-- `audio.py` lines 91-110, `MelspectrogramStretch.forward(x, lengths=None)`.
The two random draws of a call are explicit arguments: `randDraw` models
`torch.rand(1)[0]` and `u` models `self.dist.sample()`.  `training` is the
`nn.Module` mode flag.  Returning `(x, lengths)` versus `x` alone is
modelled by the `Option` in the result pair.  In the stretch branch with
`lengths is None`, line 100 dereferences `None.float()`: an
`AttributeError`. -/
def MelspectrogramStretch.forward (self : MelspectrogramStretch) (P : Primitives)
    (training : Bool) (randDraw u : ℚ) (x : Tensor) (lengths : Option (List ℤ)) :
    Except String (Tensor × Option (List ℤ)) :=
  let x1 := stftModel self.stft_fft_length self.stft_hop_length P.stftVal x
  let lengths1 := lengths.map (List.map (fun L =>
    num_stft_bins L (self.fft_length : ℤ) (self.hop_length : ℤ) ((self.fft_length / 2 : ℕ) : ℤ)))
  let stretched : Except String (Tensor × Option (List ℤ)) :=
    if randDraw ≤ self.prob ∧ training = true then
      let rate := 1 - u
      let x2 := timeStretchModel self.pv_hop_length self.pv_num_freqs P.pvVal x1 rate
      match lengths1 with
      | Option.none => Except.error "AttributeError: NoneType object has no attribute float"
      | Option.some ls => Except.ok (x2, Option.some (ls.map (fun L => stretchLength L rate)))
    else Except.ok (x1, lengths1)
  match stretched with
  | Except.error e => Except.error e
  | Except.ok (x3, lengths3) => self.normStage P x3 lengths3

/-- A fully concrete primitive pack for closed evaluations: shape and
control-flow facts do not depend on the primitive values. -/
def P0 : Primitives :=
  { log10 := id, sqrtQ := id, stftVal := fun _ => 0, fbank := fun _ _ => 0, pvVal := fun _ => 0 }

/-! ### Arithmetic helper lemmas -/

/-- Python floor division by a positive divisor is the rational floor. -/
theorem int_fdiv_eq_floor (a h : ℤ) (hh : 0 < h) :
    Int.fdiv a h = ⌊(a : ℚ) / (h : ℚ)⌋ := by
  rw [Int.fdiv_eq_ediv _ hh.le]
  obtain ⟨d, rfl⟩ : ∃ d : ℕ, h = (d : ℤ) := ⟨h.toNat, (Int.toNat_of_nonneg hh.le).symm⟩
  rw [← Rat.floor_intCast_div_natCast a d]
  norm_num

/-- Truncation toward zero agrees with the floor on nonnegative values. -/
theorem ratTrunc_eq_floor (q : ℚ) (hq : 0 ≤ q) : ratTrunc q = ⌊q⌋ := by
  unfold ratTrunc
  rw [Int.tdiv_eq_ediv (Rat.num_nonneg.mpr hq) (by positivity)]
  rw [← Rat.floor_intCast_div_natCast q.num q.den, Rat.num_div_den]

/-! ### List statistics lemmas -/

/-- Every member is bounded by `listMax`. -/
theorem le_listMax {a : ℚ} : ∀ {l : List ℚ}, a ∈ l → a ≤ listMax l
  | [], h => absurd h (List.not_mem_nil a)
  | [b], h => by
      rcases List.mem_singleton.mp h with rfl
      exact le_of_eq rfl
  | b :: c :: rest, h => by
      rcases List.mem_cons.mp h with rfl | h2
      · exact le_max_left _ _
      · exact le_trans (le_listMax h2) (le_max_right _ _)

/-- `listMax` commutes with clamping every entry from below. -/
theorem listMax_map_max : ∀ (l : List ℚ), l ≠ [] → ∀ c : ℚ,
    listMax (l.map (fun v => max v c)) = max (listMax l) c
  | [], h => absurd rfl h
  | [a], _ => by intro c; rfl
  | a :: b :: rest, _ => by
      intro c
      have ih := listMax_map_max (b :: rest) (by simp) c
      show max (max a c) (listMax ((b :: rest).map (fun v => max v c)))
          = max (max a (listMax (b :: rest))) c
      rw [ih, max_max_max_comm, max_self]

/-- Sum of a centered-and-scaled list. -/
theorem sum_map_center_div (l : List ℚ) (c d : ℚ) :
    (l.map (fun v => (v - c) / d)).sum = (l.sum - (l.length : ℚ) * c) / d := by
  induction l with
  | nil => simp
  | cons a t ih =>
      simp only [List.map_cons, List.sum_cons, ih, List.length_cons]
      rw [div_add_div_same]
      congr 1
      push_cast
      ring

/-- Centering a list at its own mean and dividing by any nonzero scale
yields mean zero. -/
theorem listMean_center_div (l : List ℚ) (s : ℚ) (hs : s ≠ 0) :
    listMean (l.map (fun v => (v - listMean l) / s)) = 0 := by
  cases l with
  | nil => simp [listMean]
  | cons a t =>
      have hn : ((a :: t).length : ℚ) ≠ 0 := by
        simp only [List.length_cons]
        push_cast
        positivity
      have hsum : ((a :: t).map (fun v => (v - listMean (a :: t)) / s)).sum = 0 := by
        rw [sum_map_center_div]
        have hz : (a :: t).sum - ((a :: t).length : ℚ) * listMean (a :: t) = 0 := by
          rw [listMean]
          field_simp
        rw [hz, zero_div]
      rw [listMean, hsum, zero_div]

/-- Dividing every entry by a common scalar divides the sum. -/
theorem sum_map_div (l : List ℚ) (g : ℚ → ℚ) (c : ℚ) :
    (l.map (fun v => g v / c)).sum = (l.map g).sum / c := by
  induction l with
  | nil => simp
  | cons a t ih =>
      simp only [List.map_cons, List.sum_cons, ih]
      rw [div_add_div_same]

/-- Centering a list at its own mean and dividing by a nonzero scale
whose square is the list's variance yields variance one (the scale is an
exact square root of the variance). -/
theorem listVar_center_div (l : List ℚ) (s : ℚ) (hs : s ≠ 0)
    (hsq : s ^ 2 = listVar l) :
    listVar (l.map (fun v => (v - listMean l) / s)) = 1 := by
  have hm := listMean_center_div l s hs
  have hs2 : s ^ 2 ≠ 0 := pow_ne_zero 2 hs
  unfold listVar
  rw [hm]
  simp only [sub_zero, List.map_map, List.length_map]
  have hcomp : ((fun x => x ^ 2) ∘ fun v => (v - listMean l) / s)
      = fun v => ((v - listMean l) ^ 2) / s ^ 2 := by
    funext v
    simp [div_pow]
  rw [hcomp, sum_map_div l (fun v => (v - listMean l) ^ 2) (s ^ 2), div_right_comm]
  show listVar l / s ^ 2 = 1
  rw [← hsq, div_self hs2]

/-! ### Row-major index machinery -/

/-- A multi-index is in range of a shape. -/
def inRange (ix s : List ℕ) : Prop := List.Forall₂ (· < ·) ix s

/-- In-range multi-indices flatten below the element count. -/
theorem flattenIdx_lt : ∀ {ix s : List ℕ}, inRange ix s → flattenIdx s ix < s.prod := by
  intro ix s h
  induction h with
  | nil => simp [flattenIdx]
  | @cons i d is ds hid hrest ih =>
      show flattenIdx (d :: ds) (i :: is) < (d :: ds).prod
      have h1 : flattenIdx ds is < ds.prod := ih
      have h2 : i + 1 ≤ d := hid
      show i * ds.prod + flattenIdx ds is < d * ds.prod
      calc i * ds.prod + flattenIdx ds is < (i + 1) * ds.prod := by
            rw [Nat.add_mul, Nat.one_mul]
            omega
        _ ≤ d * ds.prod := Nat.mul_le_mul_right _ h2

/-- Unflattening inverts flattening on in-range multi-indices. -/
theorem unflatten_flatten : ∀ {ix s : List ℕ}, inRange ix s →
    unflattenIdx s (flattenIdx s ix) = ix := by
  intro ix s h
  induction h with
  | nil => rfl
  | @cons i d is ds hid hrest ih =>
      have h1 : flattenIdx ds is < ds.prod := flattenIdx_lt hrest
      have hP : 0 < ds.prod := by omega
      show unflattenIdx (d :: ds) (flattenIdx (d :: ds) (i :: is)) = i :: is
      show ((i * ds.prod + flattenIdx ds is) / ds.prod)
            :: unflattenIdx ds ((i * ds.prod + flattenIdx ds is) % ds.prod) = i :: is
      have hcomm : i * ds.prod + flattenIdx ds is = flattenIdx ds is + ds.prod * i := by
        ring
      rw [hcomm, Nat.add_mul_div_left _ _ hP, Nat.div_eq_of_lt h1,
        Nat.add_mul_mod_self_left, Nat.mod_eq_of_lt h1, ih]
      simp

/-- Reading a tensor whose data enumerates `g` over all positions. -/
theorem get_mk_range (s : List ℕ) (g : ℕ → ℚ) {ix : List ℕ} (h : inRange ix s) :
    Tensor.get ⟨s, (List.range s.prod).map g⟩ ix = g (flattenIdx s ix) := by
  unfold Tensor.get
  rw [List.getD_eq_getElem?_getD, List.getElem?_map, List.getElem?_range (flattenIdx_lt h)]
  rfl

/-- Zipping an in-range multi-index with its shape and projecting the
singleton axes to `0` is the identity. -/
theorem zip_map_stretch : ∀ {ix s : List ℕ}, inRange ix s →
    (ix.zip s).map (fun p => if p.2 = 1 then 0 else p.1) = ix := by
  intro ix s h
  induction h with
  | nil => rfl
  | @cons i d is ds hid hrest ih =>
      show (if d = 1 then 0 else i) :: ((is.zip ds).map (fun p => if p.2 = 1 then 0 else p.1))
          = i :: is
      by_cases hd : d = 1
      · subst hd
        have hi : i = 0 := by omega
        subst hi
        simpa using ih
      · simpa [hd] using ih

/-- `broadcastIdx` only strips a leading prefix when the trailing
multi-index is in range of the source shape. -/
theorem broadcastIdx_of_inRange (pre : List ℕ) {ix s : List ℕ} (h : inRange ix s) :
    broadcastIdx s (pre ++ ix) = ix := by
  unfold broadcastIdx
  have hlen : ix.length = s.length := List.Forall₂.length_eq h
  have hdrop : (pre ++ ix).drop ((pre ++ ix).length - s.length) = ix := by
    rw [List.length_append, hlen]
    have heq : pre.length + s.length - s.length = pre.length := by omega
    rw [heq]
    exact List.drop_left pre ix
  rw [hdrop]
  exact zip_map_stretch h

/-! ### Broadcast computations for the whiten normalizer -/

/-- Collapsing `if n = 1 then 1 else n`. -/
theorem iteOne (n : ℕ) : (if n = 1 then 1 else n) = n := by
  by_cases h : n = 1 <;> simp [h]

/-- An in-range index on a possibly-singleton axis. -/
theorem iteZeroIdx {i B : ℕ} (h : i < B) : (if B = 1 then 0 else i) = i := by
  by_cases hB : B = 1
  · subst hB
    have hi : i = 0 := by omega
    subst hi
    simp
  · simp [hB]

/-- Broadcasting a 3-D tensor against `(B,1,1,1)` statistics gives the
4-D shape `(B,B,M,T)`. -/
theorem broadcastShape_3_4 (B M T : ℕ) :
    broadcastShape [B, M, T] [B, 1, 1, 1] = Option.some [B, B, M, T] := by
  simp [broadcastShape, padShape, iteOne]

/-- Broadcasting the 4-D difference against the `(B,1,1,1)` statistics
keeps the shape `(B,B,M,T)`. -/
theorem broadcastShape_4_4 (B M T : ℕ) :
    broadcastShape [B, B, M, T] [B, 1, 1, 1] = Option.some [B, B, M, T] := by
  simp [broadcastShape, padShape, iteOne]

/-- The mean statistics tensor of `spec_whiten` on a 3-D input: shape
`(B,1,1,1)`, one mean per batch element over its `M*T` flattened values. -/
theorem whiten_mean_eq (lspec : Tensor) (B M T : ℕ) (hsh : lspec.shape = [B, M, T])
    (hB : 0 < B) :
    along_dim meanDim (lspec.reshape2 (lspec.shape.headD 0))
      = ⟨[B, 1, 1, 1], (List.range B).map (fun b => listMean (rowSlice lspec.data (M * T) b))⟩ := by
  obtain ⟨sh, dat⟩ := lspec
  simp only at hsh
  subst hsh
  unfold along_dim meanDim Tensor.reshape2 Tensor.reshape4
  simp [Nat.mul_div_cancel_left _ hB]

/-- The standard-deviation statistics tensor of `spec_whiten` on a 3-D
input: shape `(B,1,1,1)`, one `sqrtQ`-of-variance per batch element. -/
theorem whiten_std_eq (sqrtQ : ℚ → ℚ) (lspec : Tensor) (B M T : ℕ)
    (hsh : lspec.shape = [B, M, T]) (hB : 0 < B) :
    along_dim (stdDim sqrtQ) (lspec.reshape2 (lspec.shape.headD 0))
      = ⟨[B, 1, 1, 1], (List.range B).map (fun b => sqrtQ (listVar (rowSlice lspec.data (M * T) b)))⟩ := by
  obtain ⟨sh, dat⟩ := lspec
  simp only at hsh
  subst hsh
  unfold along_dim stdDim Tensor.reshape2 Tensor.reshape4
  simp [Nat.mul_div_cancel_left _ hB]

/-- `Tensor.binop` on broadcast-compatible shapes succeeds, enumerating
the broadcast reads. -/
theorem binop_ok (f : ℚ → ℚ → ℚ) (t1 t2 : Tensor) (s : List ℕ)
    (hbs : broadcastShape t1.shape t2.shape = Option.some s) :
    Tensor.binop f t1 t2 = Except.ok ⟨s, (List.range s.prod).map (fun k =>
      f (t1.get (broadcastIdx t1.shape (unflattenIdx s k)))
        (t2.get (broadcastIdx t2.shape (unflattenIdx s k))))⟩ := by
  unfold Tensor.binop
  rw [hbs]

/-- Pointwise reading of a successful `Tensor.binop`. -/
theorem binop_get (f : ℚ → ℚ → ℚ) (t1 t2 : Tensor) (s : List ℕ)
    (hbs : broadcastShape t1.shape t2.shape = Option.some s) {out : Tensor}
    (hout : Tensor.binop f t1 t2 = Except.ok out) {ix : List ℕ} (hix : inRange ix s) :
    out.get ix = f (t1.get (broadcastIdx t1.shape ix)) (t2.get (broadcastIdx t2.shape ix)) := by
  rw [binop_ok f t1 t2 s hbs] at hout
  injection hout with h
  subst h
  rw [get_mk_range _ _ hix, unflatten_flatten hix]

/-- Full characterization of `spec_whiten` on a 3-D `(B, M, T)` input
with `B > 0`: the result is a 4-D `(B, B, M, T)` tensor whose
`(i, j, m, tt)` entry combines the data of batch element `j` with the
mean and standard deviation of batch element `i`. -/
theorem spec_whiten_char (sqrtQ log10 : ℚ → ℚ) (t : Tensor) (eps : ℚ) (B M T : ℕ)
    (ht : t.shape = [B, M, T]) (hB : 0 < B) :
    ∃ out, spec_whiten sqrtQ log10 t eps = Except.ok out ∧
      out.shape = [B, B, M, T] ∧
      ∀ i j m tt, i < B → j < B → m < M → tt < T →
        out.get [i, j, m, tt]
          = ((t.data.map (fun v => log10 (v + eps))).getD (j * (M * T) + (m * T + tt)) 0
              - listMean (rowSlice (t.data.map (fun v => log10 (v + eps))) (M * T) i))
            / sqrtQ (listVar (rowSlice (t.data.map (fun v => log10 (v + eps))) (M * T) i)) := by
  have hls : (Tensor.map (fun v => log10 (v + eps)) t).shape = [B, M, T] := by
    simp [Tensor.map, ht]
  have hm := whiten_mean_eq (Tensor.map (fun v => log10 (v + eps)) t) B M T hls hB
  have hst := whiten_std_eq sqrtQ (Tensor.map (fun v => log10 (v + eps)) t) B M T hls hB
  have hbs1 : broadcastShape (Tensor.map (fun v => log10 (v + eps)) t).shape
      ((⟨[B, 1, 1, 1], (List.range B).map (fun b =>
        listMean (rowSlice (Tensor.map (fun v => log10 (v + eps)) t).data (M * T) b))⟩ : Tensor)).shape
      = Option.some [B, B, M, T] := by
    rw [hls]
    exact broadcastShape_3_4 B M T
  have hsub := binop_ok (fun a b => a - b) (Tensor.map (fun v => log10 (v + eps)) t)
    ⟨[B, 1, 1, 1], (List.range B).map (fun b =>
      listMean (rowSlice (Tensor.map (fun v => log10 (v + eps)) t).data (M * T) b))⟩
    [B, B, M, T] hbs1
  have hw : spec_whiten sqrtQ log10 t eps
      = Tensor.binop (fun a b => a / b)
          ⟨[B, B, M, T], (List.range ([B, B, M, T].prod)).map (fun k =>
            (Tensor.map (fun v => log10 (v + eps)) t).get
                (broadcastIdx (Tensor.map (fun v => log10 (v + eps)) t).shape
                  (unflattenIdx [B, B, M, T] k))
              - Tensor.get ⟨[B, 1, 1, 1], (List.range B).map (fun b =>
                  listMean (rowSlice (Tensor.map (fun v => log10 (v + eps)) t).data (M * T) b))⟩
                (broadcastIdx [B, 1, 1, 1] (unflattenIdx [B, B, M, T] k)))⟩
          ⟨[B, 1, 1, 1], (List.range B).map (fun b =>
            sqrtQ (listVar (rowSlice (Tensor.map (fun v => log10 (v + eps)) t).data (M * T) b)))⟩ := by
    simp only [spec_whiten]
    rw [hm, hst, hsub]
  have hbs2 : broadcastShape
      ((⟨[B, B, M, T], (List.range ([B, B, M, T].prod)).map (fun k =>
        (Tensor.map (fun v => log10 (v + eps)) t).get
            (broadcastIdx (Tensor.map (fun v => log10 (v + eps)) t).shape
              (unflattenIdx [B, B, M, T] k))
          - Tensor.get ⟨[B, 1, 1, 1], (List.range B).map (fun b =>
              listMean (rowSlice (Tensor.map (fun v => log10 (v + eps)) t).data (M * T) b))⟩
            (broadcastIdx [B, 1, 1, 1] (unflattenIdx [B, B, M, T] k)))⟩ : Tensor)).shape
      ((⟨[B, 1, 1, 1], (List.range B).map (fun b =>
        sqrtQ (listVar (rowSlice (Tensor.map (fun v => log10 (v + eps)) t).data (M * T) b)))⟩ : Tensor)).shape
      = Option.some [B, B, M, T] := broadcastShape_4_4 B M T
  have hok := binop_ok (fun a b => a / b) _ _ [B, B, M, T] hbs2
  rw [hok] at hw
  refine ⟨_, hw, rfl, ?_⟩
  intro i j m tt hi hj hmm htt
  have hin : inRange [i, j, m, tt] [B, B, M, T] :=
    List.Forall₂.cons hi (List.Forall₂.cons hj (List.Forall₂.cons hmm
      (List.Forall₂.cons htt List.Forall₂.nil)))
  have hin3 : inRange [j, m, tt] [B, M, T] :=
    List.Forall₂.cons hj (List.Forall₂.cons hmm (List.Forall₂.cons htt List.Forall₂.nil))
  have b0 : broadcastIdx [B, B, M, T] [i, j, m, tt] = [i, j, m, tt] := by
    simpa using broadcastIdx_of_inRange [] hin
  have b3 : broadcastIdx [B, M, T] [i, j, m, tt] = [j, m, tt] := by
    simpa using broadcastIdx_of_inRange [i] hin3
  have b1 : broadcastIdx [B, 1, 1, 1] [i, j, m, tt] = [i, 0, 0, 0] := by
    simp [broadcastIdx, iteZeroIdx hi]
  have hfl1 : flattenIdx [B, 1, 1, 1] [i, 0, 0, 0] = i := by
    simp [flattenIdx]
  have hfl3 : flattenIdx [B, M, T] [j, m, tt] = j * (M * T) + (m * T + tt) := by
    simp [flattenIdx]
  have hmg : Tensor.get ⟨[B, 1, 1, 1], (List.range B).map (fun b =>
      listMean (rowSlice (Tensor.map (fun v => log10 (v + eps)) t).data (M * T) b))⟩ [i, 0, 0, 0]
      = listMean (rowSlice (Tensor.map (fun v => log10 (v + eps)) t).data (M * T) i) := by
    unfold Tensor.get
    rw [show (Tensor.mk [B, 1, 1, 1] ((List.range B).map (fun b =>
      listMean (rowSlice (Tensor.map (fun v => log10 (v + eps)) t).data (M * T) b)))).shape
        = [B, 1, 1, 1] from rfl, hfl1]
    rw [List.getD_eq_getElem?_getD, List.getElem?_map, List.getElem?_range hi]
    rfl
  have hsg : Tensor.get ⟨[B, 1, 1, 1], (List.range B).map (fun b =>
      sqrtQ (listVar (rowSlice (Tensor.map (fun v => log10 (v + eps)) t).data (M * T) b)))⟩ [i, 0, 0, 0]
      = sqrtQ (listVar (rowSlice (Tensor.map (fun v => log10 (v + eps)) t).data (M * T) i)) := by
    unfold Tensor.get
    rw [show (Tensor.mk [B, 1, 1, 1] ((List.range B).map (fun b =>
      sqrtQ (listVar (rowSlice (Tensor.map (fun v => log10 (v + eps)) t).data (M * T) b))))).shape
        = [B, 1, 1, 1] from rfl, hfl1]
    rw [List.getD_eq_getElem?_getD, List.getElem?_map, List.getElem?_range hi]
    rfl
  have hlg : (Tensor.map (fun v => log10 (v + eps)) t).get [j, m, tt]
      = (t.data.map (fun v => log10 (v + eps))).getD (j * (M * T) + (m * T + tt)) 0 := by
    unfold Tensor.get
    rw [show (Tensor.map (fun v => log10 (v + eps)) t).shape = t.shape from rfl, ht, hfl3]
    rfl
  rw [get_mk_range _ _ hin, unflatten_flatten hin]
  rw [show (Tensor.mk [B, B, M, T] ((List.range ([B, B, M, T].prod)).map (fun k =>
      (Tensor.map (fun v => log10 (v + eps)) t).get
          (broadcastIdx (Tensor.map (fun v => log10 (v + eps)) t).shape
            (unflattenIdx [B, B, M, T] k))
        - Tensor.get ⟨[B, 1, 1, 1], (List.range B).map (fun b =>
            listMean (rowSlice (Tensor.map (fun v => log10 (v + eps)) t).data (M * T) b))⟩
          (broadcastIdx [B, 1, 1, 1] (unflattenIdx [B, B, M, T] k))))).shape
      = [B, B, M, T] from rfl]
  rw [b0, b1, hsg]
  rw [get_mk_range _ _ hin, unflatten_flatten hin]
  rw [show (Tensor.map (fun v => log10 (v + eps)) t).shape = t.shape from rfl, ht]
  rw [b3, b1, hmg, hlg]
  rfl

/-! ### power_to_db helper lemmas -/

/-- `power_to_db` preserves the tensor shape whenever it succeeds. -/
theorem power_to_db_shape (log10 : ℚ → ℚ) (spec : Tensor) (ref : Sum ℚ (Tensor → ℚ))
    (amin : ℚ) (top_db : Option ℚ) (y : Tensor)
    (h : power_to_db log10 spec ref amin top_db = Except.ok y) : y.shape = spec.shape := by
  unfold power_to_db at h
  by_cases hamin : amin ≤ 0
  · rw [if_pos hamin] at h
    exact Except.noConfusion h
  · rw [if_neg hamin] at h
    cases top_db with
    | none =>
        have h2 : Except.ok (db_preclamp log10 spec (refScalar spec ref) amin)
            = Except.ok y := h
        injection h2 with h2
        subst h2
        rfl
    | some td =>
        have h2 : (if td < 0 then
              (Except.error "ParameterError: top_db must be non-negative" : Except String Tensor)
            else if (db_preclamp log10 spec (refScalar spec ref) amin).data = []
              then Except.error "RuntimeError: max of an empty tensor"
              else Except.ok (Tensor.map (fun v => max v
                  (listMax (db_preclamp log10 spec (refScalar spec ref) amin).data - td))
                (db_preclamp log10 spec (refScalar spec ref) amin)))
            = Except.ok y := h
        by_cases htd : td < 0
        · rw [if_pos htd] at h2
          exact Except.noConfusion h2
        · rw [if_neg htd] at h2
          by_cases hemp : (db_preclamp log10 spec (refScalar spec ref) amin).data = []
          · rw [if_pos hemp] at h2
            exact Except.noConfusion h2
          · rw [if_neg hemp] at h2
            injection h2 with h2
            subst h2
            rfl

/-- `power_to_db` with `top_db=None` succeeds once the `amin` check
passes, returning the unclamped log spectrogram. -/
theorem power_to_db_none_ok (log10 : ℚ → ℚ) (spec : Tensor) (ref : Sum ℚ (Tensor → ℚ))
    (amin : ℚ) (hamin : ¬ amin ≤ 0) :
    power_to_db log10 spec ref amin Option.none
      = Except.ok (db_preclamp log10 spec (refScalar spec ref) amin) := by
  unfold power_to_db
  rw [if_neg hamin]

/-- `power_to_db` with a nonnegative `top_db` on a nonempty spectrogram
succeeds, clamping from below at `max(log_spec) - top_db`. -/
theorem power_to_db_some_ok (log10 : ℚ → ℚ) (spec : Tensor) (ref : Sum ℚ (Tensor → ℚ))
    (amin td : ℚ) (hamin : ¬ amin ≤ 0) (htd : ¬ td < 0) (hne : ¬ spec.data = []) :
    power_to_db log10 spec ref amin (Option.some td)
      = Except.ok (Tensor.map (fun v => max v
          (listMax (db_preclamp log10 spec (refScalar spec ref) amin).data - td))
          (db_preclamp log10 spec (refScalar spec ref) amin)) := by
  have hne2 : ¬ (db_preclamp log10 spec (refScalar spec ref) amin).data = [] := by
    simpa [db_preclamp, Tensor.map, List.map_eq_nil_iff] using hne
  unfold power_to_db
  rw [if_neg hamin]
  show (if td < 0 then
      (Except.error "ParameterError: top_db must be non-negative" : Except String Tensor)
    else if (db_preclamp log10 spec (refScalar spec ref) amin).data = []
      then Except.error "RuntimeError: max of an empty tensor"
      else Except.ok (Tensor.map (fun v => max v
          (listMax (db_preclamp log10 spec (refScalar spec ref) amin).data - td))
        (db_preclamp log10 spec (refScalar spec ref) amin))) = _
  rw [if_neg htd, if_neg hne2]

/-- The `amin` guard raises regardless of the input. -/
theorem power_to_db_amin_error (log10 : ℚ → ℚ) (spec : Tensor) (ref : Sum ℚ (Tensor → ℚ))
    (amin : ℚ) (top_db : Option ℚ) (hamin : amin ≤ 0) :
    power_to_db log10 spec ref amin top_db
      = Except.error "ParameterError: amin must be strictly positive" := by
  unfold power_to_db
  rw [if_pos hamin]

/-- The `top_db` guard raises on a negative `top_db`. -/
theorem power_to_db_topdb_error (log10 : ℚ → ℚ) (spec : Tensor) (ref : Sum ℚ (Tensor → ℚ))
    (amin td : ℚ) (hamin : ¬ amin ≤ 0) (htd : td < 0) :
    power_to_db log10 spec ref amin (Option.some td)
      = Except.error "ParameterError: top_db must be non-negative" := by
  unfold power_to_db
  rw [if_neg hamin]
  show (if td < 0 then
      (Except.error "ParameterError: top_db must be non-negative" : Except String Tensor)
    else if (db_preclamp log10 spec (refScalar spec ref) amin).data = []
      then Except.error "RuntimeError: max of an empty tensor"
      else Except.ok (Tensor.map (fun v => max v
          (listMax (db_preclamp log10 spec (refScalar spec ref) amin).data - td))
        (db_preclamp log10 spec (refScalar spec ref) amin))) = _
  rw [if_pos htd]

/-- `log_spec.max()` raises on a spectrogram with no elements whenever a
`top_db` clamp is requested. -/
theorem power_to_db_empty_error (log10 : ℚ → ℚ) (spec : Tensor) (ref : Sum ℚ (Tensor → ℚ))
    (amin td : ℚ) (hamin : ¬ amin ≤ 0) (htd : ¬ td < 0) (hemp : spec.data = []) :
    power_to_db log10 spec ref amin (Option.some td)
      = Except.error "RuntimeError: max of an empty tensor" := by
  have hemp2 : (db_preclamp log10 spec (refScalar spec ref) amin).data = [] := by
    simp [db_preclamp, Tensor.map, hemp]
  unfold power_to_db
  rw [if_neg hamin]
  show (if td < 0 then
      (Except.error "ParameterError: top_db must be non-negative" : Except String Tensor)
    else if (db_preclamp log10 spec (refScalar spec ref) amin).data = []
      then Except.error "RuntimeError: max of an empty tensor"
      else Except.ok (Tensor.map (fun v => max v
          (listMax (db_preclamp log10 spec (refScalar spec ref) amin).data - td))
        (db_preclamp log10 spec (refScalar spec ref) amin))) = _
  rw [if_neg htd, if_pos hemp2]

/-! ### Claims C6 and C7: the decibel normalizer -/

/-- C7 (amended): `power_to_db` raises exactly when `amin <= 0`, or a
non-None `top_db` is negative, or a non-None `top_db` is given and the
input has no elements (taking the max of an empty tensor); the original
claim listed only the first two conditions. -/
theorem C7_db_raise_iff_amended (log10 : ℚ → ℚ) (spec : Tensor) (ref : Sum ℚ (Tensor → ℚ))
    (amin : ℚ) (top_db : Option ℚ) :
    (∃ e, power_to_db log10 spec ref amin top_db = Except.error e) ↔
      (amin ≤ 0 ∨ ∃ td, top_db = Option.some td ∧ (td < 0 ∨ spec.data = [])) := by
  by_cases hamin : amin ≤ 0
  · constructor
    · intro _
      exact Or.inl hamin
    · intro _
      exact ⟨_, power_to_db_amin_error log10 spec ref amin top_db hamin⟩
  · cases top_db with
    | none =>
        constructor
        · rintro ⟨e, he⟩
          rw [power_to_db_none_ok log10 spec ref amin hamin] at he
          exact Except.noConfusion he
        · rintro (h | ⟨td, htd, _⟩)
          · exact absurd h hamin
          · exact Option.noConfusion htd
    | some td =>
        by_cases htd : td < 0
        · constructor
          · intro _
            exact Or.inr ⟨td, rfl, Or.inl htd⟩
          · intro _
            exact ⟨_, power_to_db_topdb_error log10 spec ref amin td hamin htd⟩
        · by_cases hemp : spec.data = []
          · constructor
            · intro _
              exact Or.inr ⟨td, rfl, Or.inr hemp⟩
            · intro _
              exact ⟨_, power_to_db_empty_error log10 spec ref amin td hamin htd hemp⟩
          · constructor
            · rintro ⟨e, he⟩
              rw [power_to_db_some_ok log10 spec ref amin td hamin htd hemp] at he
              exact Except.noConfusion he
            · rintro (h | ⟨td2, htd2, h2⟩)
              · exact absurd h hamin
              · injection htd2 with h3
                subst h3
                rcases h2 with h2 | h2
                · exact absurd h2 htd
                · exact absurd h2 hemp

/-- C7 counterexample: with `amin = 1 > 0` and `top_db = 80 ≥ 0`,
`power_to_db` still raises on a zero-element spectrogram (shape `[0]`),
because `log_spec.max()` on an empty tensor is a `RuntimeError`; so the
claim that it raises exactly when `amin <= 0` or `top_db < 0` is false. -/
theorem C7_db_raise_counterexample :
    (∃ e, power_to_db id ⟨[0], []⟩ (Sum.inl 1) 1 (Option.some 80) = Except.error e) ∧
    ¬ ((1 : ℚ) ≤ 0) ∧ ¬ ((80 : ℚ) < 0) :=
  ⟨⟨"RuntimeError: max of an empty tensor", by with_unfolding_all rfl⟩,
    by with_unfolding_all decide, by with_unfolding_all decide⟩

/-- C6 (amended): in decibel mode the normalizer treats its input as an
amplitude spectrogram, squaring it first: on a nonempty input with
`amin > 0` and finite `top_db ≥ 0` it returns the clamp of
`10*log10(max(input^2, amin)) - 10*log10(max(ref, amin))`; the clamping
law holds as claimed: every output value is at least
`max(output) - top_db` and the maximum output value is unchanged by the
clamp. -/
theorem C6_db_amended (log10 : ℚ → ℚ) (spec : Tensor) (ref amin td : ℚ)
    (hamin : 0 < amin) (htd : 0 ≤ td) (hne : spec.data ≠ []) :
    ∃ out, amplitude_to_db log10 spec (Sum.inl ref) amin (Option.some td) = Except.ok out ∧
      out.data = (spec.data.map
          (fun v => 10 * log10 (max (v ^ 2) amin) - 10 * log10 (max ref amin))).map
        (fun v => max v
          (listMax (spec.data.map
            (fun v => 10 * log10 (max (v ^ 2) amin) - 10 * log10 (max ref amin))) - td)) ∧
      (∀ w ∈ out.data, listMax out.data - td ≤ w) ∧
      listMax out.data
        = listMax (spec.data.map
            (fun v => 10 * log10 (max (v ^ 2) amin) - 10 * log10 (max ref amin))) := by
  have hne2 : ¬ (Tensor.map (fun v => v ^ 2) spec).data = [] := by
    simpa [Tensor.map, List.map_eq_nil_iff] using hne
  have hok := power_to_db_some_ok log10 (Tensor.map (fun v => v ^ 2) spec) (Sum.inl ref)
    amin td (not_le.mpr hamin) (not_lt.mpr htd) hne2
  have hdata : (db_preclamp log10 (Tensor.map (fun v => v ^ 2) spec)
      (refScalar (Tensor.map (fun v => v ^ 2) spec) (Sum.inl ref)) amin).data
      = spec.data.map (fun v => 10 * log10 (max (v ^ 2) amin) - 10 * log10 (max ref amin)) := by
    simp [db_preclamp, Tensor.map, refScalar, List.map_map]
  have hLne : spec.data.map
      (fun v => 10 * log10 (max (v ^ 2) amin) - 10 * log10 (max ref amin)) ≠ [] := by
    simpa [List.map_eq_nil_iff] using hne
  have houtdata : (Tensor.map (fun v => max v
      (listMax (db_preclamp log10 (Tensor.map (fun v => v ^ 2) spec)
        (refScalar (Tensor.map (fun v => v ^ 2) spec) (Sum.inl ref)) amin).data - td))
      (db_preclamp log10 (Tensor.map (fun v => v ^ 2) spec)
        (refScalar (Tensor.map (fun v => v ^ 2) spec) (Sum.inl ref)) amin)).data
      = (spec.data.map
          (fun v => 10 * log10 (max (v ^ 2) amin) - 10 * log10 (max ref amin))).map
        (fun v => max v
          (listMax (spec.data.map
            (fun v => 10 * log10 (max (v ^ 2) amin) - 10 * log10 (max ref amin))) - td)) := by
    show (db_preclamp log10 (Tensor.map (fun v => v ^ 2) spec)
        (refScalar (Tensor.map (fun v => v ^ 2) spec) (Sum.inl ref)) amin).data.map _ = _
    rw [hdata]
  have hMax : listMax ((spec.data.map
        (fun v => 10 * log10 (max (v ^ 2) amin) - 10 * log10 (max ref amin))).map
      (fun v => max v
        (listMax (spec.data.map
          (fun v => 10 * log10 (max (v ^ 2) amin) - 10 * log10 (max ref amin))) - td)))
      = listMax (spec.data.map
          (fun v => 10 * log10 (max (v ^ 2) amin) - 10 * log10 (max ref amin))) := by
    rw [listMax_map_max _ hLne]
    exact max_eq_left (sub_le_self _ htd)
  refine ⟨_, hok, houtdata, ?_, ?_⟩
  · intro w hw
    rw [houtdata] at hw
    rw [houtdata, hMax]
    rcases List.mem_map.mp hw with ⟨v, _, rfl⟩
    exact le_max_right _ _
  · rw [houtdata, hMax]

/-- C6 counterexample: the db-mode normalizer applied to the one-value
power spectrogram `[2]` (with abstract `log10` instantiated as `id`)
outputs `30`, because it squares its input to `4` before the log
conversion, while the claimed formula
`10*log10(max(input, amin)) - 10*log10(max(ref, amin))` gives `10`. -/
theorem C6_db_counterexample :
    (amplitude_to_db id ⟨[1], [2]⟩ (Sum.inl 1) (1 / 10 ^ 10) (Option.some 80)).toOption.map
        Tensor.data = Option.some [30] ∧
    10 * id (max (2 : ℚ) (1 / 10 ^ 10)) - 10 * id (max (1 : ℚ) (1 / 10 ^ 10)) = 10 ∧
    (30 : ℚ) ≠ 10 :=
  ⟨by with_unfolding_all rfl, by with_unfolding_all rfl, by with_unfolding_all decide⟩

/-- C6 witness: the amended theorem applied at `log10 = id`,
`spec = [2]`, `ref = 1`, `amin = 1`, `top_db = 80`. -/
theorem C6_db_amended_witness :
    (0 : ℚ) < 1 ∧ (0 : ℚ) ≤ 80 ∧ ((⟨[1], [2]⟩ : Tensor)).data ≠ [] ∧
    (∃ out, amplitude_to_db id ⟨[1], [2]⟩ (Sum.inl 1) 1 (Option.some 80) = Except.ok out ∧
      out.data = (((⟨[1], [2]⟩ : Tensor)).data.map
          (fun v => 10 * id (max (v ^ 2) 1) - 10 * id (max 1 1))).map
        (fun v => max v
          (listMax (((⟨[1], [2]⟩ : Tensor)).data.map
            (fun v => 10 * id (max (v ^ 2) 1) - 10 * id (max 1 1))) - 80)) ∧
      (∀ w ∈ out.data, listMax out.data - 80 ≤ w) ∧
      listMax out.data
        = listMax (((⟨[1], [2]⟩ : Tensor)).data.map
            (fun v => 10 * id (max (v ^ 2) 1) - 10 * id (max 1 1)))) :=
  ⟨by with_unfolding_all decide, by with_unfolding_all decide, by with_unfolding_all decide,
    C6_db_amended id ⟨[1], [2]⟩ 1 1 80 (by with_unfolding_all decide)
      (by with_unfolding_all decide) (by with_unfolding_all decide)⟩

/-! ### forward reduction lemmas -/

/-- When the stretch gate does not fire (in particular always in
inference mode), `forward` is the STFT followed by the norm stage, with
lengths mapped elementwise through `num_stft_bins`. -/
theorem forward_no_stretch (self : MelspectrogramStretch) (P : Primitives)
    (training : Bool) (rd u : ℚ) (x : Tensor) (lengths : Option (List ℤ))
    (hc : ¬ (rd ≤ self.prob ∧ training = true)) :
    self.forward P training rd u x lengths
      = self.normStage P (stftModel self.stft_fft_length self.stft_hop_length P.stftVal x)
          (lengths.map (List.map (fun L => num_stft_bins L (self.fft_length : ℤ)
            (self.hop_length : ℤ) ((self.fft_length / 2 : ℕ) : ℤ)))) := by
  simp only [MelspectrogramStretch.forward]
  rw [if_neg hc]

/-- When the stretch gate fires on a supplied length vector, `forward`
time-stretches the STFT tensor by `rate = 1 - u` and updates the length
vector through `stretchLength`. -/
theorem forward_stretch (self : MelspectrogramStretch) (P : Primitives)
    (rd u : ℚ) (x : Tensor) (ls : List ℤ) (hc : rd ≤ self.prob) :
    self.forward P true rd u x (Option.some ls)
      = self.normStage P
          (timeStretchModel self.pv_hop_length self.pv_num_freqs P.pvVal
            (stftModel self.stft_fft_length self.stft_hop_length P.stftVal x) (1 - u))
          (Option.some ((ls.map (fun L => num_stft_bins L (self.fft_length : ℤ)
            (self.hop_length : ℤ) ((self.fft_length / 2 : ℕ) : ℤ))).map
            (fun L => stretchLength L (1 - u)))) := by
  simp only [MelspectrogramStretch.forward]
  rw [if_pos ⟨hc, trivial⟩]
  rfl

/-- When the stretch gate fires with `lengths=None`, line 100 raises. -/
theorem forward_stretch_none (self : MelspectrogramStretch) (P : Primitives)
    (rd u : ℚ) (x : Tensor) (hc : rd ≤ self.prob) :
    self.forward P true rd u x Option.none
      = Except.error "AttributeError: NoneType object has no attribute float" := by
  simp only [MelspectrogramStretch.forward]
  rw [if_pos ⟨hc, trivial⟩]
  rfl

/-- The norm stage never touches the length vector. -/
theorem normStage_lengths (self : MelspectrogramStretch) (P : Primitives) (x3 : Tensor)
    (l3 : Option (List ℤ)) (r : Tensor × Option (List ℤ))
    (h : self.normStage P x3 l3 = Except.ok r) : r.2 = l3 := by
  unfold MelspectrogramStretch.normStage at h
  cases hnorm : self.norm with
  | none =>
      rw [hnorm] at h
      injection h with h
      subst h
      rfl
  | some sel =>
      cases sel with
      | whiten =>
          rw [hnorm] at h
          cases hw : spec_whiten P.sqrtQ P.log10
              (applyFilterbankModel self.fb_num_mels P.fbank (complexNormModel x3)) 1 with
          | error e =>
              rw [hw] at h
              exact Except.noConfusion h
          | ok y =>
              rw [hw] at h
              injection h with h
              subst h
              rfl
      | db =>
          rw [hnorm] at h
          cases hw : amplitude_to_db P.log10
              (applyFilterbankModel self.fb_num_mels P.fbank (complexNormModel x3))
              (Sum.inl 1) (1 / 10 ^ 10) (Option.some 80) with
          | error e =>
              rw [hw] at h
              exact Except.noConfusion h
          | ok y =>
              rw [hw] at h
              injection h with h
              subst h
              rfl

/-- Shape of a successful norm stage: a 3-D `(B, num_mels, T)` mel
spectrogram for the db normalizer or no normalizer, but a 4-D
`(B, B, num_mels, T)` tensor for the whiten normalizer. -/
theorem normStage_shape (self : MelspectrogramStretch) (P : Primitives) (x3 : Tensor)
    (l3 : Option (List ℤ)) (r : Tensor × Option (List ℤ))
    (hB : 0 < x3.shape.dropLast.getD 0 0)
    (h : self.normStage P x3 l3 = Except.ok r) :
    (self.norm ≠ Option.some NormSel.whiten →
      r.1.shape = [x3.shape.dropLast.getD 0 0, self.fb_num_mels, x3.shape.dropLast.getD 2 0]) ∧
    (self.norm = Option.some NormSel.whiten →
      r.1.shape = [x3.shape.dropLast.getD 0 0, x3.shape.dropLast.getD 0 0,
        self.fb_num_mels, x3.shape.dropLast.getD 2 0]) := by
  unfold MelspectrogramStretch.normStage at h
  cases hnorm : self.norm with
  | none =>
      rw [hnorm] at h
      injection h with h
      subst h
      exact ⟨fun _ => rfl, fun hc => absurd hc.symm (by exact fun hc2 => Option.noConfusion hc2)⟩
  | some sel =>
      cases sel with
      | whiten =>
          rw [hnorm] at h
          obtain ⟨out, hout, hsh, _⟩ := spec_whiten_char P.sqrtQ P.log10
            (applyFilterbankModel self.fb_num_mels P.fbank (complexNormModel x3)) 1
            (x3.shape.dropLast.getD 0 0) self.fb_num_mels (x3.shape.dropLast.getD 2 0)
            rfl hB
          rw [hout] at h
          injection h with h
          subst h
          refine ⟨fun hc => absurd rfl hc, fun _ => hsh⟩
      | db =>
          rw [hnorm] at h
          cases hw : amplitude_to_db P.log10
              (applyFilterbankModel self.fb_num_mels P.fbank (complexNormModel x3))
              (Sum.inl 1) (1 / 10 ^ 10) (Option.some 80) with
          | error e =>
              rw [hw] at h
              exact Except.noConfusion h
          | ok y =>
              rw [hw] at h
              injection h with h
              subst h
              have hysh := power_to_db_shape P.log10
                (Tensor.map (fun v => v ^ 2)
                  (applyFilterbankModel self.fb_num_mels P.fbank (complexNormModel x3)))
                (Sum.inl 1) (1 / 10 ^ 10) (Option.some 80) y hw
              refine ⟨fun _ => hysh, fun hc => ?_⟩
              · injection hc with hc2
                exact NormSel.noConfusion hc2

/-! ### Claims C2, C3, C4, C8, C9, C10 -/

/-- C9: the constructor argument `hop_length` is ignored: the stored hop
length used for the STFT configuration, for the time-stretcher
configuration, and for the length bookkeeping in `forward` always equals
`fft_length // 4`, and two constructions differing only in `hop_length`
are identical modules. -/
theorem C9_hop_length_ignored (h1 h2 : Option ℕ) (nm fl : ℕ) (ns : String) (sp : List ℚ) :
    (MelspectrogramStretch.init h1 nm fl ns sp).hop_length = fl / 4 ∧
    (MelspectrogramStretch.init h1 nm fl ns sp).stft_hop_length = fl / 4 ∧
    (MelspectrogramStretch.init h1 nm fl ns sp).pv_hop_length = fl / 4 ∧
    MelspectrogramStretch.init h1 nm fl ns sp = MelspectrogramStretch.init h2 nm fl ns sp :=
  ⟨rfl, rfl, rfl, rfl⟩

/-- C2: in a non-stretch call the supplied length vector is mapped
elementwise through `num_stft_bins` with `hop = fft_length//4` and
`pad = fft_length/2`, and for every `L`, `fft_length` and positive
`hop_length` (any `pad`) the `numStftBins` value equals the frame-count
formula `floor((L + 2*pad - fft_length) / hop_length) + 1`. -/
theorem C2_stft_length_map (hop : Option ℕ) (nm fl : ℕ) (ns : String) (sp : List ℚ)
    (P : Primitives) (rd u : ℚ) (x : Tensor) (ls : List ℤ) (r : Tensor × Option (List ℤ))
    (hres : (MelspectrogramStretch.init hop nm fl ns sp).forward P false rd u x (Option.some ls)
      = Except.ok r) :
    r.2 = Option.some (ls.map (fun L =>
        num_stft_bins L (fl : ℤ) ((fl / 4 : ℕ) : ℤ) ((fl / 2 : ℕ) : ℤ))) ∧
    ∀ L fft hop2 pad : ℤ, 0 < hop2 →
      num_stft_bins L fft hop2 pad = ⌊((L + 2 * pad - fft : ℤ) : ℚ) / (hop2 : ℚ)⌋ + 1 := by
  constructor
  · rw [forward_no_stretch _ _ _ _ _ _ _ (by simp)] at hres
    exact normStage_lengths _ _ _ _ _ hres
  · intro L fft hop2 pad hh
    unfold num_stft_bins
    have h1 : L + 2 * pad - fft + hop2 = (L + 2 * pad - fft) + 1 * hop2 := by ring
    rw [h1, Int.fdiv_eq_ediv _ hh.le, Int.add_mul_ediv_right _ _ hh.ne',
      ← Int.fdiv_eq_ediv _ hh.le, int_fdiv_eq_floor _ _ hh]

/-- C2 witness: a concrete inference call with `fft_length = 4`,
`hop = 1`, `pad = 2`; the length `4` maps to `numStftBins(4) = 5`. -/
theorem C2_stft_length_map_witness :
    ((MelspectrogramStretch.init Option.none 1 4 "n" [0, 0]).forward P0 false 0 0
        ⟨[1, 4], [0, 0, 0, 0]⟩ (Option.some [4])
      = Except.ok (⟨[1, 1, 5], [0, 0, 0, 0, 0]⟩, Option.some [5])) ∧
    ((⟨[1, 1, 5], [0, 0, 0, 0, 0]⟩, Option.some [5]) : Tensor × Option (List ℤ)).2
        = Option.some ([4].map (fun L =>
          num_stft_bins L (4 : ℤ) ((4 / 4 : ℕ) : ℤ) ((4 / 2 : ℕ) : ℤ))) ∧
    (∀ L fft hop2 pad : ℤ, 0 < hop2 →
      num_stft_bins L fft hop2 pad = ⌊((L + 2 * pad - fft : ℤ) : ℚ) / (hop2 : ℚ)⌋ + 1) := by
  have h : (MelspectrogramStretch.init Option.none 1 4 "n" [0, 0]).forward P0 false 0 0
      ⟨[1, 4], [0, 0, 0, 0]⟩ (Option.some [4])
      = Except.ok (⟨[1, 1, 5], [0, 0, 0, 0, 0]⟩, Option.some [5]) := by
    with_unfolding_all rfl
  have h2 := C2_stft_length_map Option.none 1 4 "n" [0, 0] P0 0 0
    ⟨[1, 4], [0, 0, 0, 0]⟩ [4] _ h
  exact ⟨h, h2.1, h2.2⟩

/-- C3: when the stretch stage fires with rate `r = 1 - u`, the frame
length vector is updated elementwise by `stretchLength`, and for every
nonnegative length and positive rate `stretchLength old r` equals
`floor(old / r) + 1` (the float-to-long truncation coincides with the
floor there). -/
theorem C3_stretch_length_update (hop : Option ℕ) (nm fl : ℕ) (ns : String) (sp : List ℚ)
    (P : Primitives) (rd u : ℚ) (x : Tensor) (ls : List ℤ) (r : Tensor × Option (List ℤ))
    (hrd : rd ≤ (MelspectrogramStretch.init hop nm fl ns sp).prob)
    (hres : (MelspectrogramStretch.init hop nm fl ns sp).forward P true rd u x (Option.some ls)
      = Except.ok r) :
    r.2 = Option.some ((ls.map (fun L =>
        num_stft_bins L (fl : ℤ) ((fl / 4 : ℕ) : ℤ) ((fl / 2 : ℕ) : ℤ))).map
        (fun L => stretchLength L (1 - u))) ∧
    ∀ old : ℤ, 0 ≤ old → ∀ rate : ℚ, 0 < rate →
      stretchLength old rate = ⌊(old : ℚ) / rate⌋ + 1 := by
  constructor
  · rw [forward_stretch _ _ _ _ _ _ hrd] at hres
    exact normStage_lengths _ _ _ _ _ hres
  · intro old h0 rate hr
    unfold stretchLength
    rw [ratTrunc_eq_floor _ (div_nonneg (by exact_mod_cast h0) hr.le)]

/-- C3 witness: stretch at rate `1/2` maps the frame length `5` to
`floor(5 / (1/2)) + 1 = 11`. -/
theorem C3_stretch_length_update_witness :
    ((1 : ℚ) / 2 ≤ (MelspectrogramStretch.init Option.none 1 4 "n" [1, 1/2]).prob) ∧
    ((MelspectrogramStretch.init Option.none 1 4 "n" [1, 1/2]).forward P0 true (1/2) (1/2)
        ⟨[1, 4], [0, 0, 0, 0]⟩ (Option.some [4])
      = Except.ok (⟨[1, 1, 10], [0, 0, 0, 0, 0, 0, 0, 0, 0, 0]⟩, Option.some [11])) ∧
    ((⟨[1, 1, 10], [0, 0, 0, 0, 0, 0, 0, 0, 0, 0]⟩, Option.some [11])
        : Tensor × Option (List ℤ)).2
        = Option.some (([4].map (fun L =>
          num_stft_bins L (4 : ℤ) ((4 / 4 : ℕ) : ℤ) ((4 / 2 : ℕ) : ℤ))).map
          (fun L => stretchLength L (1 - 1/2))) ∧
    (∀ old : ℤ, 0 ≤ old → ∀ rate : ℚ, 0 < rate →
      stretchLength old rate = ⌊(old : ℚ) / rate⌋ + 1) := by
  have h1 : (1 : ℚ) / 2 ≤ (MelspectrogramStretch.init Option.none 1 4 "n" [1, 1/2]).prob := by
    with_unfolding_all decide
  have h : (MelspectrogramStretch.init Option.none 1 4 "n" [1, 1/2]).forward P0 true (1/2)
      (1/2) ⟨[1, 4], [0, 0, 0, 0]⟩ (Option.some [4])
      = Except.ok (⟨[1, 1, 10], [0, 0, 0, 0, 0, 0, 0, 0, 0, 0]⟩, Option.some [11]) := by
    with_unfolding_all rfl
  have h2 := C3_stretch_length_update Option.none 1 4 "n" [1, 1/2] P0 (1/2) (1/2)
    ⟨[1, 4], [0, 0, 0, 0]⟩ [4] _ h1 h
  exact ⟨h1, h, h2.1, h2.2⟩

/-- C8: for `old ≥ 1` and `rate > 0`, the updated length
`stretchLength old rate` is at most `old` when `rate > 1`, at least
`old` when `rate < 1`, and always at least `1`. -/
theorem C8_length_monotonicity (old : ℤ) (rate : ℚ) (hold : 1 ≤ old) (hr : 0 < rate) :
    (1 < rate → stretchLength old rate ≤ old) ∧
    (rate < 1 → old ≤ stretchLength old rate) ∧
    1 ≤ stretchLength old rate := by
  have h0 : (0 : ℚ) ≤ (old : ℚ) := by exact_mod_cast le_trans zero_le_one hold
  have hq : (0 : ℚ) ≤ (old : ℚ) / rate := div_nonneg h0 hr.le
  unfold stretchLength
  rw [ratTrunc_eq_floor _ hq]
  refine ⟨fun h1 => ?_, fun h1 => ?_, ?_⟩
  · have hlt : (old : ℚ) / rate < (old : ℚ) :=
      div_lt_self (by exact_mod_cast lt_of_lt_of_le zero_lt_one hold) h1
    have hfl := Int.floor_lt.mpr hlt
    omega
  · have hle : (old : ℚ) ≤ (old : ℚ) / rate := by
      rw [le_div_iff₀ hr]
      exact mul_le_of_le_one_right h0 h1.le
    have hfl := Int.le_floor.mpr hle
    omega
  · have hfl := Int.floor_nonneg.mpr hq
    omega

/-- C8 witness: `old = 2`, `rate = 2` gives updated length `2 ≤ 2`. -/
theorem C8_length_monotonicity_witness :
    (1 ≤ (2 : ℤ)) ∧ ((0 : ℚ) < 2) ∧
    ((1 < (2 : ℚ) → stretchLength 2 2 ≤ 2) ∧
     ((2 : ℚ) < 1 → 2 ≤ stretchLength 2 2) ∧
     1 ≤ stretchLength 2 2) :=
  ⟨by decide, by with_unfolding_all decide,
    C8_length_monotonicity 2 2 (by decide) (by with_unfolding_all decide)⟩

/-- C10: a training-mode call whose stretch gate fires
(`randDraw ≤ stretch_prob`) with `lengths=None` raises an
`AttributeError` at the length update of line 100 instead of returning a
feature tensor. -/
theorem C10_none_lengths_error (hop : Option ℕ) (nm fl : ℕ) (ns : String) (sp : List ℚ)
    (P : Primitives) (rd u : ℚ) (x : Tensor)
    (hrd : rd ≤ (MelspectrogramStretch.init hop nm fl ns sp).prob) :
    (MelspectrogramStretch.init hop nm fl ns sp).forward P true rd u x Option.none
      = Except.error "AttributeError: NoneType object has no attribute float" :=
  forward_stretch_none _ _ _ _ _ hrd

/-- C10 witness: `stretch_prob = 1`, draw `0 ≤ 1`, no lengths: error. -/
theorem C10_none_lengths_error_witness :
    ((0 : ℚ) ≤ (MelspectrogramStretch.init Option.none 1 4 "n" [1, 0]).prob) ∧
    (MelspectrogramStretch.init Option.none 1 4 "n" [1, 0]).forward P0 true 0 0
        ⟨[1, 4], [0, 0, 0, 0]⟩ Option.none
      = Except.error "AttributeError: NoneType object has no attribute float" :=
  ⟨by with_unfolding_all decide,
    C10_none_lengths_error Option.none 1 4 "n" [1, 0] P0 0 0 ⟨[1, 4], [0, 0, 0, 0]⟩
      (by with_unfolding_all decide)⟩

/-- C4: with stretch probability `1.0`, an inference-mode call is
independent of both random draws and its length vector is the pure STFT
frame count, while a training-mode call with any draw `randDraw ≤ 1`
always applies the stretch, updating the length vector by
`stretchLength` at the sampled rate `1 - u`. -/
theorem C4_mode_gating (hop : Option ℕ) (nm fl : ℕ) (ns : String) (m : ℚ) (P : Primitives)
    (x : Tensor) (l : Option (List ℤ)) :
    (∀ rd u rd2 u2,
      (MelspectrogramStretch.init hop nm fl ns [1, m]).forward P false rd u x l
        = (MelspectrogramStretch.init hop nm fl ns [1, m]).forward P false rd2 u2 x l) ∧
    (∀ rd u r,
      (MelspectrogramStretch.init hop nm fl ns [1, m]).forward P false rd u x l
        = Except.ok r →
      r.2 = l.map (List.map (fun L =>
        num_stft_bins L (fl : ℤ) ((fl / 4 : ℕ) : ℤ) ((fl / 2 : ℕ) : ℤ)))) ∧
    (∀ rd u, rd ≤ 1 → ∀ ls r,
      (MelspectrogramStretch.init hop nm fl ns [1, m]).forward P true rd u x (Option.some ls)
        = Except.ok r →
      r.2 = Option.some ((ls.map (fun L =>
        num_stft_bins L (fl : ℤ) ((fl / 4 : ℕ) : ℤ) ((fl / 2 : ℕ) : ℤ))).map
        (fun L => stretchLength L (1 - u)))) := by
  refine ⟨?_, ?_, ?_⟩
  · intro rd u rd2 u2
    rw [forward_no_stretch _ _ _ _ _ _ _ (by simp),
      forward_no_stretch _ _ _ _ _ _ _ (by simp)]
  · intro rd u r hres
    rw [forward_no_stretch _ _ _ _ _ _ _ (by simp)] at hres
    exact normStage_lengths _ _ _ _ _ hres
  · intro rd u hrd ls r hres
    rw [forward_stretch _ _ _ _ _ _ (by exact hrd)] at hres
    exact normStage_lengths _ _ _ _ _ hres

/-- C4 witness: two inference calls with different draws agree, and a
training call with draw `1/2 ≤ 1` and rate `1/2` stretches `7` frames to
`14` and the length `7` to `15`. -/
theorem C4_mode_gating_witness :
    ((MelspectrogramStretch.init Option.none 1 4 "n" [1, 1/2]).forward P0 false (1/4) (2/3)
        ⟨[1, 6], [0, 0, 0, 0, 0, 0]⟩ (Option.some [6])
      = (MelspectrogramStretch.init Option.none 1 4 "n" [1, 1/2]).forward P0 false (7/8) (1/5)
        ⟨[1, 6], [0, 0, 0, 0, 0, 0]⟩ (Option.some [6])) ∧
    ((1 : ℚ) / 2 ≤ 1) ∧
    ((MelspectrogramStretch.init Option.none 1 4 "n" [1, 1/2]).forward P0 true (1/2) (1/2)
        ⟨[1, 6], [0, 0, 0, 0, 0, 0]⟩ (Option.some [6])
      = Except.ok (⟨[1, 1, 14], List.replicate 14 0⟩, Option.some [15])) ∧
    ((⟨[1, 1, 14], List.replicate 14 0⟩, Option.some [15]) : Tensor × Option (List ℤ)).2
      = Option.some (([6].map (fun L =>
          num_stft_bins L (4 : ℤ) ((4 / 4 : ℕ) : ℤ) ((4 / 2 : ℕ) : ℤ))).map
          (fun L => stretchLength L (1 - 1/2))) := by
  have hr : (MelspectrogramStretch.init Option.none 1 4 "n" [1, 1/2]).forward P0 true (1/2)
      (1/2) ⟨[1, 6], [0, 0, 0, 0, 0, 0]⟩ (Option.some [6])
      = Except.ok (⟨[1, 1, 14], List.replicate 14 0⟩, Option.some [15]) := by
    with_unfolding_all rfl
  have hc4 := C4_mode_gating Option.none 1 4 "n" (1/2) P0 ⟨[1, 6], [0, 0, 0, 0, 0, 0]⟩
    (Option.some [6])
  exact ⟨hc4.1 (1/4) (2/3) (7/8) (1/5), by with_unfolding_all decide, hr,
    hc4.2.2 (1/2) (1/2) (by with_unfolding_all decide) [6] _ hr⟩

/-! ### Claims C1 and C5: output shapes and the whiten normalizer -/

/-- A norm string other than `whiten` never selects the whiten
normalizer. -/
theorem selectNorm_ne_whiten {ns : String} (h : ns ≠ "whiten") :
    selectNorm ns ≠ Option.some NormSel.whiten := by
  unfold selectNorm
  rw [if_neg h]
  by_cases h2 : ns = "db"
  · rw [if_pos h2]
    intro hc
    injection hc with hc2
    exact NormSel.noConfusion hc2
  · rw [if_neg h2]
    exact fun hc => Option.noConfusion hc

/-- C1 (amended): every successful `forward` call on a batch of `B ≥ 1`
waveforms returns a tensor whose shape is `[B, num_mels, T]` (3-D, with
the mel axis of length `num_mels`) when the configured norm is `db` or
unrecognized, but `[B, B, num_mels, T]` (4-D, mel axis still `num_mels`)
when the norm is `whiten`. -/
theorem C1_forward_shape_amended (hop : Option ℕ) (nm fl : ℕ) (ns : String) (sp : List ℚ)
    (P : Primitives) (training : Bool) (rd u : ℚ) (x : Tensor) (l : Option (List ℤ))
    (r : Tensor × Option (List ℤ)) (hB : 0 < x.shape.headD 0)
    (hres : (MelspectrogramStretch.init hop nm fl ns sp).forward P training rd u x l
      = Except.ok r) :
    (ns ≠ "whiten" → ∃ Tn, r.1.shape = [x.shape.headD 0, nm, Tn]) ∧
    (ns = "whiten" → ∃ Tn, r.1.shape = [x.shape.headD 0, x.shape.headD 0, nm, Tn]) := by
  by_cases hc : rd ≤ (MelspectrogramStretch.init hop nm fl ns sp).prob ∧ training = true
  · obtain ⟨hrd, htr⟩ := hc
    subst htr
    cases l with
    | none =>
        rw [forward_stretch_none _ _ _ _ _ hrd] at hres
        exact Except.noConfusion hres
    | some ls =>
        rw [forward_stretch _ _ _ _ _ _ hrd] at hres
        have hshape := normStage_shape _ _ _ _ _ (by exact hB) hres
        constructor
        · intro hns
          exact ⟨_, hshape.1 (selectNorm_ne_whiten hns)⟩
        · intro hns
          subst hns
          exact ⟨_, hshape.2 (by simp [MelspectrogramStretch.init, selectNorm])⟩
  · rw [forward_no_stretch _ _ _ _ _ _ _ hc] at hres
    have hshape := normStage_shape _ _ _ _ _ (by exact hB) hres
    constructor
    · intro hns
      exact ⟨_, hshape.1 (selectNorm_ne_whiten hns)⟩
    · intro hns
      subst hns
      exact ⟨_, hshape.2 (by simp [MelspectrogramStretch.init, selectNorm])⟩

/-- C1 counterexample: with `norm='whiten'`, `num_mels=1`,
`fft_length=4` and a batch of one length-4 waveform, `forward` returns a
tensor of shape `[1, 1, 1, 5]` — four dimensions, not three as claimed
(the `(B,1,1,1)` whitening statistics broadcast against the 3-D mel
spectrogram add an axis). -/
theorem C1_forward_shape_counterexample :
    ((MelspectrogramStretch.init Option.none 1 4 "whiten" [2/5, 2/5]).forward P0
        false 0 0 ⟨[1, 4], [0, 0, 0, 0]⟩ Option.none).toOption.map (fun p => p.1.shape)
      = Option.some [1, 1, 1, 5] ∧
    ([1, 1, 1, 5] : List ℕ).length ≠ 3 :=
  ⟨by with_unfolding_all rfl, by decide⟩

/-- C1 witness: the amended theorem applied to a concrete inference call
with an unrecognized norm string (norm stage disabled). -/
theorem C1_forward_shape_amended_witness :
    0 < ((⟨[1, 4], [0, 0, 0, 0]⟩ : Tensor)).shape.headD 0 ∧
    ((MelspectrogramStretch.init Option.none 1 4 "n" [0, 0]).forward P0 false 0 0
        ⟨[1, 4], [0, 0, 0, 0]⟩ Option.none
      = Except.ok (⟨[1, 1, 5], [0, 0, 0, 0, 0]⟩, Option.none)) ∧
    (("n" ≠ "whiten" → ∃ Tn, ((⟨[1, 1, 5], [0, 0, 0, 0, 0]⟩, Option.none)
        : Tensor × Option (List ℤ)).1.shape
        = [((⟨[1, 4], [0, 0, 0, 0]⟩ : Tensor)).shape.headD 0, 1, Tn]) ∧
     ("n" = "whiten" → ∃ Tn, ((⟨[1, 1, 5], [0, 0, 0, 0, 0]⟩, Option.none)
        : Tensor × Option (List ℤ)).1.shape
        = [((⟨[1, 4], [0, 0, 0, 0]⟩ : Tensor)).shape.headD 0,
            ((⟨[1, 4], [0, 0, 0, 0]⟩ : Tensor)).shape.headD 0, 1, Tn])) := by
  have h : (MelspectrogramStretch.init Option.none 1 4 "n" [0, 0]).forward P0 false 0 0
      ⟨[1, 4], [0, 0, 0, 0]⟩ Option.none
      = Except.ok (⟨[1, 1, 5], [0, 0, 0, 0, 0]⟩, Option.none) := by
    with_unfolding_all rfl
  exact ⟨by decide, h, C1_forward_shape_amended Option.none 1 4 "n" [0, 0] P0 false 0 0
    ⟨[1, 4], [0, 0, 0, 0]⟩ Option.none _ (by decide) h⟩

/-- C5 (amended): `spec_whiten` computes `log10(spec + eps)` and correct
per-batch-element mean/std statistics over the flattened non-batch
dimensions, but combines them by broadcasting the `(B,1,1,1)` statistics
against the 3-D spectrogram: the output is the 4-D `(B, B, M, T)` tensor
with entry `(i, j, m, t)` equal to `(lspec[j,m,t] - mean_i) / std_i`.
The mean-0/std-1 law therefore holds for the diagonal slices `(i, i)`
(hence for the value set when `B = 1`), not per batch element of the
output: each diagonal slice has mean 0, and — when the abstract square
root is exact at the variance of row `i` (`std_i ≠ 0` with
`std_i ^ 2 = var_i`) and at `1` — standard deviation
`sqrtQ (listVar slice) = 1`. -/
theorem C5_whiten_amended (sqrtQ log10 : ℚ → ℚ) (t : Tensor) (eps : ℚ) (B M T : ℕ)
    (ht : t.shape = [B, M, T]) (hB : 0 < B) :
    (∃ out, spec_whiten sqrtQ log10 t eps = Except.ok out ∧
      out.shape = [B, B, M, T] ∧
      ∀ i j m tt, i < B → j < B → m < M → tt < T →
        out.get [i, j, m, tt]
          = ((t.data.map (fun v => log10 (v + eps))).getD (j * (M * T) + (m * T + tt)) 0
              - listMean (rowSlice (t.data.map (fun v => log10 (v + eps))) (M * T) i))
            / sqrtQ (listVar (rowSlice (t.data.map (fun v => log10 (v + eps))) (M * T) i))) ∧
    (∀ i, sqrtQ (listVar (rowSlice (t.data.map (fun v => log10 (v + eps))) (M * T) i)) ≠ 0 →
      listMean ((rowSlice (t.data.map (fun v => log10 (v + eps))) (M * T) i).map
        (fun v => (v - listMean (rowSlice (t.data.map (fun v => log10 (v + eps))) (M * T) i))
          / sqrtQ (listVar (rowSlice (t.data.map (fun v => log10 (v + eps))) (M * T) i))))
        = 0) ∧
    (sqrtQ 1 = 1 →
      ∀ i, sqrtQ (listVar (rowSlice (t.data.map (fun v => log10 (v + eps))) (M * T) i)) ≠ 0 →
        sqrtQ (listVar (rowSlice (t.data.map (fun v => log10 (v + eps))) (M * T) i)) ^ 2
          = listVar (rowSlice (t.data.map (fun v => log10 (v + eps))) (M * T) i) →
        sqrtQ (listVar ((rowSlice (t.data.map (fun v => log10 (v + eps))) (M * T) i).map
          (fun v => (v - listMean (rowSlice (t.data.map (fun v => log10 (v + eps))) (M * T) i))
            / sqrtQ (listVar (rowSlice (t.data.map (fun v => log10 (v + eps))) (M * T) i)))))
          = 1) := by
  refine ⟨spec_whiten_char sqrtQ log10 t eps B M T ht hB, ?_, ?_⟩
  · intro i hs
    exact listMean_center_div _ _ hs
  · intro h1 i hs hsq
    rw [listVar_center_div _ _ hs hsq]
    exact h1

/-- C5 counterexample: on the 3-D spectrogram of shape `(2,1,3)` with
data `[0,1,2,10,11,12]` (`log10` instantiated as `id`, the `torch.std`
square root as `id` — exact on the variance `1` occurring here, `eps=1`),
the whitened output is 4-D of shape `(2,2,1,3)`, and its batch element
`0` — the first six values, which mix the data of both input elements
against the statistics of element 0 — has mean `5`, not `0`. -/
theorem C5_whiten_counterexample :
    (spec_whiten id id ⟨[2, 1, 3], [0, 1, 2, 10, 11, 12]⟩ 1
      = Except.ok ⟨[2, 2, 1, 3], [-1, 0, 1, 9, 10, 11, -11, -10, -9, -1, 0, 1]⟩) ∧
    listMean [-1, 0, 1, 9, 10, 11] = 5 ∧ (5 : ℚ) ≠ 0 ∧
    ([2, 2, 1, 3] : List ℕ) ≠ [2, 1, 3] :=
  ⟨by with_unfolding_all rfl, by with_unfolding_all rfl,
    by with_unfolding_all decide, by decide⟩

/-- C5 witness: the amended theorem applied to the concrete `(2,1,3)`
spectrogram of the counterexample (there `sqrtQ = id` is exact at the
occurring variance `1` and at `1`). -/
theorem C5_whiten_amended_witness :
    ((⟨[2, 1, 3], [0, 1, 2, 10, 11, 12]⟩ : Tensor)).shape = [2, 1, 3] ∧ 0 < 2 ∧
    ((∃ out, spec_whiten id id ⟨[2, 1, 3], [0, 1, 2, 10, 11, 12]⟩ 1 = Except.ok out ∧
      out.shape = [2, 2, 1, 3] ∧
      ∀ i j m tt, i < 2 → j < 2 → m < 1 → tt < 3 →
        out.get [i, j, m, tt]
          = ((((⟨[2, 1, 3], [0, 1, 2, 10, 11, 12]⟩ : Tensor)).data.map
                (fun v => id (v + 1))).getD (j * (1 * 3) + (m * 3 + tt)) 0
              - listMean (rowSlice (((⟨[2, 1, 3], [0, 1, 2, 10, 11, 12]⟩ : Tensor)).data.map
                  (fun v => id (v + 1))) (1 * 3) i))
            / id (listVar (rowSlice (((⟨[2, 1, 3], [0, 1, 2, 10, 11, 12]⟩ : Tensor)).data.map
                (fun v => id (v + 1))) (1 * 3) i))) ∧
    (∀ i, id (listVar (rowSlice (((⟨[2, 1, 3], [0, 1, 2, 10, 11, 12]⟩ : Tensor)).data.map
          (fun v => id (v + 1))) (1 * 3) i)) ≠ 0 →
      listMean ((rowSlice (((⟨[2, 1, 3], [0, 1, 2, 10, 11, 12]⟩ : Tensor)).data.map
          (fun v => id (v + 1))) (1 * 3) i).map
        (fun v => (v - listMean (rowSlice (((⟨[2, 1, 3], [0, 1, 2, 10, 11, 12]⟩ : Tensor)).data.map
            (fun v => id (v + 1))) (1 * 3) i))
          / id (listVar (rowSlice (((⟨[2, 1, 3], [0, 1, 2, 10, 11, 12]⟩ : Tensor)).data.map
              (fun v => id (v + 1))) (1 * 3) i))))
        = 0) ∧
    (id (1 : ℚ) = 1 →
      ∀ i, id (listVar (rowSlice (((⟨[2, 1, 3], [0, 1, 2, 10, 11, 12]⟩ : Tensor)).data.map
            (fun v => id (v + 1))) (1 * 3) i)) ≠ 0 →
        id (listVar (rowSlice (((⟨[2, 1, 3], [0, 1, 2, 10, 11, 12]⟩ : Tensor)).data.map
            (fun v => id (v + 1))) (1 * 3) i)) ^ 2
          = listVar (rowSlice (((⟨[2, 1, 3], [0, 1, 2, 10, 11, 12]⟩ : Tensor)).data.map
            (fun v => id (v + 1))) (1 * 3) i) →
        id (listVar ((rowSlice (((⟨[2, 1, 3], [0, 1, 2, 10, 11, 12]⟩ : Tensor)).data.map
            (fun v => id (v + 1))) (1 * 3) i).map
          (fun v => (v - listMean (rowSlice
              (((⟨[2, 1, 3], [0, 1, 2, 10, 11, 12]⟩ : Tensor)).data.map
                (fun v => id (v + 1))) (1 * 3) i))
            / id (listVar (rowSlice (((⟨[2, 1, 3], [0, 1, 2, 10, 11, 12]⟩ : Tensor)).data.map
                (fun v => id (v + 1))) (1 * 3) i)))))
          = 1)) :=
  ⟨rfl, by decide,
    C5_whiten_amended id id ⟨[2, 1, 3], [0, 1, 2, 10, 11, 12]⟩ 1 2 1 3 rfl (by decide)⟩
